import Mathlib

/-!
Verification of the LiteLLM managed-files hook
(`litellm/proxy/hooks/managed_files.py`).

Python strings are modelled as their UTF-8 byte sequences (`List Nat`,
each element `< 256`); `str.encode()` / `bytes.decode()` are then the
identity on the byte level together with a UTF-8 validity check.
-/

/-- Byte-level `s.startswith p` (Python `str.startswith`). -/
def startswith (p s : List Nat) : Bool :=
  match p, s with
  | [], _ => true
  | _ :: _, [] => false
  | a :: p', b :: s' => a = b && startswith p' s'

/-- URL-safe base64 alphabet as byte values: `A-Z a-z 0-9 - _`
    (`base64.urlsafe_b64encode`'s output alphabet). -/
def b64EncTable : List Nat :=
  (List.range 26).map (· + 65) ++ (List.range 26).map (· + 97) ++
    (List.range 10).map (· + 48) ++ [45, 95]

/-- The byte encoding the 6-bit group `n`. -/
def encChar (n : Nat) : Nat := b64EncTable.getD n 0

/-- `base64.urlsafe_b64encode` on a byte sequence, including `=` padding
    (`=` is byte 61). Three input bytes become four alphabet bytes. -/
def b64encode : List Nat → List Nat
  | [] => []
  | [a] => [encChar (a / 4), encChar (a % 4 * 16), 61, 61]
  | [a, b] => [encChar (a / 4), encChar (a % 4 * 16 + b / 16), encChar (b % 16 * 4), 61]
  | a :: b :: c :: rest =>
      encChar (a / 4) :: encChar (a % 4 * 16 + b / 16) ::
        encChar (b % 16 * 4 + c / 64) :: encChar (c % 64) :: b64encode rest

/-- Python `s.rstrip("=")`: drop all trailing `=` (byte 61). -/
def rstripEq (l : List Nat) : List Nat :=
  (l.reverse.dropWhile (fun x => x = 61)).reverse

example : b64encode [108] = [98, 65, 61, 61] := by decide

example : rstripEq [98, 65, 61, 61] = [98, 65] := by decide

/-- The 6-bit value of one input byte for `base64.urlsafe_b64decode`:
    `urlsafe_b64decode` first translates `-`→`+` and `_`→`/` and then uses the
    standard alphabet, so both the standard bytes `+` (43), `/` (47) and the
    URL-safe bytes `-` (45), `_` (95) are accepted. `none` marks a byte that
    `binascii.a2b_base64` (non-strict) silently discards. -/
def decChar (c : Nat) : Option Nat :=
  if 65 ≤ c ∧ c ≤ 90 then some (c - 65)
  else if 97 ≤ c ∧ c ≤ 122 then some (c - 71)
  else if 48 ≤ c ∧ c ≤ 57 then some (c + 4)
  else if c = 43 ∨ c = 45 then some 62
  else if c = 47 ∨ c = 95 then some 63
  else none

/-- The state machine of CPython's `binascii.a2b_base64` in non-strict mode
    (which is what `base64.urlsafe_b64decode` calls after the alphabet
    translation): bytes outside the alphabet are discarded; a data byte at
    quad position `q` updates the position and, for `q ≥ 1`, emits an output
    byte; an `=` (61) at quad position ≥ 2 that completes the quad ends the
    decode, returning the bytes accumulated so far; input ending at a quad
    position other than 0 is an error (`none`), which models the Python
    exception. `acc` accumulates the output bytes in order. -/
def a2b : List Nat → Nat → Nat → Nat → List Nat → Option (List Nat)
  | [], quadPos, _, _, acc => if quadPos = 0 then some acc else none
  | ch :: rest, quadPos, leftchar, pads, acc =>
      if ch = 61 then
        if 2 ≤ quadPos ∧ 4 ≤ quadPos + (pads + 1) then some acc
        else if 2 ≤ quadPos then a2b rest quadPos leftchar (pads + 1) acc
        else a2b rest quadPos leftchar pads acc
      else
        match decChar ch with
        | none => a2b rest quadPos leftchar pads acc
        | some v =>
          match quadPos with
          | 0 => a2b rest 1 v 0 acc
          | 1 => a2b rest 2 (v % 16) 0 (acc ++ [leftchar * 4 + v / 16])
          | 2 => a2b rest 3 (v % 4) 0 (acc ++ [leftchar * 16 + v / 4])
          | _ => a2b rest 0 0 0 (acc ++ [leftchar * 64 + v])

/-- `base64.urlsafe_b64decode` applied to a Python *string*: the string is
    first ASCII-encoded (failing — `none` — when any UTF-8 byte is ≥ 128),
    then decoded by the `a2b` machine. -/
def urlsafe_b64decode (s : List Nat) : Option (List Nat) :=
  if s.all (fun x => x < 128) then a2b s 0 0 0 [] else none

/-- `b64_uid + "=" * (-len(b64_uid) % 4)`: re-pad to a multiple of 4. -/
def repad (s : List Nat) : List Nat :=
  s ++ List.replicate ((4 - s.length % 4) % 4) 61

/-- Is `b` a UTF-8 continuation byte? -/
def isCont (b : Nat) : Bool := 128 ≤ b && b ≤ 191

/-- The constraint on the first continuation byte after the lead byte `b`:
    `E0` forces `A0..BF` (no overlong 3-byte forms), `ED` forces `80..9F`
    (no surrogates), `F0` forces `90..BF` (no overlong 4-byte forms), `F4`
    forces `80..8F` (nothing above `U+10FFFF`); all other leads allow any
    continuation byte. -/
def contOk (b c : Nat) : Bool :=
  if b = 224 then 160 ≤ c && c ≤ 191
  else if b = 237 then 128 ≤ c && c ≤ 159
  else if b = 240 then 144 ≤ c && c ≤ 191
  else if b = 244 then 128 ≤ c && c ≤ 143
  else isCont c

/-- Consume one UTF-8 scalar whose lead byte is `b` and continuation bytes
    are taken from `rest`; returns the remaining bytes, or `none` when the
    head is not a well-formed scalar. Lead bytes `80..C1` (overlong 2-byte
    forms and bare continuations) and `F5..` are invalid. -/
def utf8Consume (b : Nat) (rest : List Nat) : Option (List Nat) :=
  if b ≤ 127 then some rest
  else if 194 ≤ b ∧ b ≤ 223 then
    match rest with
    | c :: r => if contOk b c then some r else none
    | _ => none
  else if 224 ≤ b ∧ b ≤ 239 then
    match rest with
    | c :: d :: r => if contOk b c && isCont d then some r else none
    | _ => none
  else if 240 ≤ b ∧ b ≤ 244 then
    match rest with
    | c :: d :: e :: r => if contOk b c && isCont d && isCont e then some r else none
    | _ => none
  else none

/-- Fuel-indexed UTF-8 validator; the fuel only serves termination and is
    irrelevant once it is at least the list length
    (`validUtf8Fuel_congr`). -/
def validUtf8Fuel : Nat → List Nat → Bool
  | 0, l => l.isEmpty
  | fuel + 1, l =>
    match l with
    | [] => true
    | b :: rest =>
      match utf8Consume b rest with
      | some r => validUtf8Fuel fuel r
      | none => false

/-- Strict UTF-8 validity of a byte sequence, exactly as Python's
    `bytes.decode()` checks it: no overlong forms, no surrogates, nothing
    above `U+10FFFF`. A Python `str` is in bijection with the valid byte
    sequences, so `bytes.decode()` is modelled as this check followed by
    the identity. -/
def validUtf8 (l : List Nat) : Bool := validUtf8Fuel l.length l

/-- Modelled from the spec: the constant sentinel string that marks a
    unified file token (`SpecialEnums.LITELM_MANAGED_FILE_ID_PREFIX`, whose
    definition lives outside this repository slice). Per the spec's key
    conventions and the hook's own docstrings ("Detect litellm_proxy/
    file_id"), it is the string `"litellm_proxy"`; these are its UTF-8
    bytes: l i t e l l m _ p r o x y. -/
def managedFileSentinel : List Nat :=
  [108, 105, 116, 101, 108, 108, 109, 95, 112, 114, 111, 120, 121]

/-- `_PROXY_LiteLLMManagedFiles._is_base64_encoded_unified_file_id`
    (managed_files.py lines 191–203): re-pad, URL-safe base64 decode,
    UTF-8-decode, and return the decoded string when it starts with the
    sentinel; every failure (the Python `except Exception`) and a decoded
    string without the sentinel yield `False`, modelled as `none`. -/
def is_base64_encoded_unified_file_id (b64_uid : List Nat) : Option (List Nat) :=
  match urlsafe_b64decode (repad b64_uid) with
  | none => none
  | some bytes =>
    if validUtf8 bytes then
      if startswith managedFileSentinel bytes then some bytes else none
    else none

/-- Static method `_PROXY_LiteLLMManagedFiles._convert_b64_uid_to_unified_uid`
    (lines 181–189): the decoded token when the input is a base64-encoded
    unified id, else the input unchanged. -/
def convert_b64_uid_to_unified_uid_static (b64_uid : List Nat) : List Nat :=
  match is_base64_encoded_unified_file_id b64_uid with
  | some decoded => decoded
  | none => b64_uid

/-- Instance method `_PROXY_LiteLLMManagedFiles.convert_b64_uid_to_unified_uid`
    (lines 205–210), textually duplicating the static method's logic. -/
def convert_b64_uid_to_unified_uid (b64_uid : List Nat) : List Nat :=
  match is_base64_encoded_unified_file_id b64_uid with
  | some decoded => decoded
  | none => b64_uid

/-- Modelled from the spec: the rendered `UnifiedFileToken` string
    (`SpecialEnums.LITELLM_MANAGED_FILE_COMPLETE_STR.format(file_type,
    str(uuid.uuid4()))`, whose constant lives outside this repository
    slice). The spec renders it as `"<prefix>,<content_type>,<uuid>"`
    (byte 44 is `,`). -/
def completeStr (content_type uuid : List Nat) : List Nat :=
  managedFileSentinel ++ [44] ++ content_type ++ [44] ++ uuid

/-- The `base64_unified_file_id` computed by `return_unified_file_id`
    (lines 290–293): URL-safe base64 of the token with `=` padding
    stripped. -/
def base64_unified_file_id (unified_file_id : List Nat) : List Nat :=
  rstripEq (b64encode unified_file_id)

example :
    is_base64_encoded_unified_file_id
      (base64_unified_file_id (completeStr [97] [48])) =
      some (completeStr [97] [48]) := by decide

example : is_base64_encoded_unified_file_id [] = none := by decide

example : is_base64_encoded_unified_file_id [95, 119] = none := by decide

theorem decChar_encChar : ∀ g, g < 64 → decChar (encChar g) = some g := by decide

theorem encChar_lt128 : ∀ g, g < 64 → encChar g < 128 := by decide

theorem encChar_ne61 : ∀ g, g < 64 → encChar g ≠ 61 := by decide

theorem a2b_step0 (ch v : Nat) (rest : List Nat) (lc pads : Nat) (acc : List Nat)
    (h61 : ch ≠ 61) (hv : decChar ch = some v) :
    a2b (ch :: rest) 0 lc pads acc = a2b rest 1 v 0 acc := by
  simp [a2b, h61, hv]

theorem a2b_step1 (ch v : Nat) (rest : List Nat) (lc pads : Nat) (acc : List Nat)
    (h61 : ch ≠ 61) (hv : decChar ch = some v) :
    a2b (ch :: rest) 1 lc pads acc =
      a2b rest 2 (v % 16) 0 (acc ++ [lc * 4 + v / 16]) := by
  simp [a2b, h61, hv]

theorem a2b_step2 (ch v : Nat) (rest : List Nat) (lc pads : Nat) (acc : List Nat)
    (h61 : ch ≠ 61) (hv : decChar ch = some v) :
    a2b (ch :: rest) 2 lc pads acc =
      a2b rest 3 (v % 4) 0 (acc ++ [lc * 16 + v / 4]) := by
  simp [a2b, h61, hv]

theorem a2b_step3 (ch v : Nat) (rest : List Nat) (lc pads : Nat) (acc : List Nat)
    (h61 : ch ≠ 61) (hv : decChar ch = some v) :
    a2b (ch :: rest) 3 lc pads acc = a2b rest 0 0 0 (acc ++ [lc * 64 + v]) := by
  simp [a2b, h61, hv]

theorem a2b_pad2_first (rest : List Nat) (lc : Nat) (acc : List Nat) :
    a2b (61 :: rest) 2 lc 0 acc = a2b rest 2 lc 1 acc := by
  simp [a2b]

theorem a2b_pad2_second (rest : List Nat) (lc : Nat) (acc : List Nat) :
    a2b (61 :: rest) 2 lc 1 acc = some acc := by
  simp [a2b]

theorem a2b_pad3 (rest : List Nat) (lc : Nat) (acc : List Nat) :
    a2b (61 :: rest) 3 lc 0 acc = some acc := by
  simp [a2b]

theorem a2b_nil (lc pads : Nat) (acc : List Nat) :
    a2b [] 0 lc pads acc = some acc := by
  simp [a2b]

/-- The `a2b` machine inverts `b64encode`, whatever output it has already
    accumulated. -/
theorem a2b_b64encode (bs : List Nat) (h : ∀ x ∈ bs, x < 256) :
    ∀ acc, a2b (b64encode bs) 0 0 0 acc = some (acc ++ bs) := by
  induction bs using b64encode.induct with
  | case1 => intro acc; simp [b64encode, a2b]
  | case2 a =>
    intro acc
    have ha : a < 256 := h a (by simp)
    have h1 : a / 4 < 64 := by omega
    have h2 : a % 4 * 16 < 64 := by omega
    rw [b64encode,
      a2b_step0 _ _ _ _ _ _ (encChar_ne61 _ h1) (decChar_encChar _ h1),
      a2b_step1 _ _ _ _ _ _ (encChar_ne61 _ h2) (decChar_encChar _ h2),
      a2b_pad2_first, a2b_pad2_second]
    have e1 : a / 4 * 4 + a % 4 * 16 / 16 = a := by omega
    rw [e1]
  | case3 a b =>
    intro acc
    have ha : a < 256 := h a (by simp)
    have hb : b < 256 := h b (by simp)
    have h1 : a / 4 < 64 := by omega
    have h2 : a % 4 * 16 + b / 16 < 64 := by omega
    have h3 : b % 16 * 4 < 64 := by omega
    rw [b64encode,
      a2b_step0 _ _ _ _ _ _ (encChar_ne61 _ h1) (decChar_encChar _ h1),
      a2b_step1 _ _ _ _ _ _ (encChar_ne61 _ h2) (decChar_encChar _ h2),
      a2b_step2 _ _ _ _ _ _ (encChar_ne61 _ h3) (decChar_encChar _ h3),
      a2b_pad3]
    have e1 : a / 4 * 4 + (a % 4 * 16 + b / 16) / 16 = a := by omega
    have e2 : (a % 4 * 16 + b / 16) % 16 * 16 + b % 16 * 4 / 4 = b := by omega
    rw [e1, e2, List.append_assoc]
    simp
  | case4 a b c rest ih =>
    intro acc
    have ha : a < 256 := h a (by simp)
    have hb : b < 256 := h b (by simp)
    have hc : c < 256 := h c (by simp)
    have hrest : ∀ x ∈ rest, x < 256 := fun x hx => h x (by simp [hx])
    have h1 : a / 4 < 64 := by omega
    have h2 : a % 4 * 16 + b / 16 < 64 := by omega
    have h3 : b % 16 * 4 + c / 64 < 64 := by omega
    have h4 : c % 64 < 64 := by omega
    rw [b64encode,
      a2b_step0 _ _ _ _ _ _ (encChar_ne61 _ h1) (decChar_encChar _ h1),
      a2b_step1 _ _ _ _ _ _ (encChar_ne61 _ h2) (decChar_encChar _ h2),
      a2b_step2 _ _ _ _ _ _ (encChar_ne61 _ h3) (decChar_encChar _ h3),
      a2b_step3 _ _ _ _ _ _ (encChar_ne61 _ h4) (decChar_encChar _ h4)]
    have e1 : a / 4 * 4 + (a % 4 * 16 + b / 16) / 16 = a := by omega
    have e2 : (a % 4 * 16 + b / 16) % 16 * 16 + (b % 16 * 4 + c / 64) / 4 = b := by omega
    have e3 : (b % 16 * 4 + c / 64) % 4 * 64 + c % 64 = c := by omega
    rw [e1, e2, e3, ih hrest]
    simp

/-- `encChar` is ASCII for every argument: out-of-range 6-bit values hit the
    `getD` default `0`. -/
theorem encChar_lt128' (g : Nat) : encChar g < 128 := by
  by_cases h : g < 64
  · exact encChar_lt128 g h
  · have : b64EncTable.length ≤ g := by
      have : b64EncTable.length = 64 := by decide
      omega
    unfold encChar
    rw [List.getD_eq_default _ _ this]
    omega

/-- `encChar` never yields the padding byte `=` (61), for any argument. -/
theorem encChar_ne61' (g : Nat) : encChar g ≠ 61 := by
  by_cases h : g < 64
  · exact encChar_ne61 g h
  · have : b64EncTable.length ≤ g := by
      have : b64EncTable.length = 64 := by decide
      omega
    unfold encChar
    rw [List.getD_eq_default _ _ this]
    omega

/-- Every byte of `b64encode`'s output is ASCII. -/
theorem b64encode_lt128 (bs : List Nat) : ∀ x ∈ b64encode bs, x < 128 := by
  induction bs using b64encode.induct with
  | case1 => simp [b64encode]
  | case2 a =>
    intro x hx
    simp [b64encode] at hx
    rcases hx with h | h | h | h <;> first
      | omega
      | (subst h; exact encChar_lt128' _)
  | case3 a b =>
    intro x hx
    simp [b64encode] at hx
    rcases hx with h | h | h | h <;> first
      | omega
      | (subst h; exact encChar_lt128' _)
  | case4 a b c rest ih =>
    intro x hx
    simp [b64encode] at hx
    rcases hx with h | h | h | h | h <;> first
      | (subst h; exact encChar_lt128' _)
      | exact ih x h

/-- `rstripEq` distributes over an append whose left part ends in a
    non-`=` byte. -/
theorem rstripEq_append (xs ys : List Nat) :
    rstripEq (xs ++ ys) =
      if rstripEq ys = [] then rstripEq xs else xs ++ rstripEq ys := by
  unfold rstripEq
  rw [List.reverse_append, List.dropWhile_append]
  by_cases h : (List.dropWhile (fun x => x = 61) ys.reverse) = []
  · simp [h]
  · simp [h, List.isEmpty_iff]

/-- `repad` ignores a length-divisible-by-4 head. -/
theorem repad_append4 (xs ys : List Nat) (h : xs.length % 4 = 0) :
    repad (xs ++ ys) = xs ++ repad ys := by
  unfold repad
  rw [List.append_assoc]
  congr 2
  have : (xs.length + ys.length) % 4 = ys.length % 4 := by omega
  rw [List.length_append, this]

/-- Re-padding undoes the `rstrip("=")` of `return_unified_file_id`: for any
    byte string, `repad` applied to the stripped base64 encoding gives back
    the padded base64 encoding. -/
theorem repad_rstripEq_b64encode (bs : List Nat) :
    repad (rstripEq (b64encode bs)) = b64encode bs := by
  induction bs using b64encode.induct with
  | case1 => simp [b64encode, rstripEq, repad]
  | case2 a =>
    have h1 : ¬ (encChar (a / 4) = 61) := encChar_ne61' _
    have h2 : ¬ (encChar (a % 4 * 16) = 61) := encChar_ne61' _
    simp [b64encode, rstripEq, repad, List.dropWhile, h1, h2, List.replicate]
  | case3 a b =>
    have h3 : ¬ (encChar (b % 16 * 4) = 61) := encChar_ne61' _
    simp [b64encode, rstripEq, repad, List.dropWhile, h3, List.replicate]
  | case4 a b c rest ih =>
    have h1 : ¬ (encChar (a / 4) = 61) := encChar_ne61' _
    have h2 : ¬ (encChar (a % 4 * 16 + b / 16) = 61) := encChar_ne61' _
    have h3 : ¬ (encChar (b % 16 * 4 + c / 64) = 61) := encChar_ne61' _
    have h4 : ¬ (encChar (c % 64) = 61) := encChar_ne61' _
    have hchunk :
        b64encode (a :: b :: c :: rest) =
          [encChar (a / 4), encChar (a % 4 * 16 + b / 16),
            encChar (b % 16 * 4 + c / 64), encChar (c % 64)] ++ b64encode rest := by
      simp [b64encode]
    rw [hchunk, rstripEq_append]
    by_cases hr : rstripEq (b64encode rest) = []
    · have hnil : b64encode rest = [] := by
        rw [← ih, hr]; simp [repad, List.replicate]
      rw [if_pos hr, hnil]
      simp [rstripEq, repad, List.dropWhile, h4, List.replicate]
    · rw [if_neg hr, repad_append4 _ _ (by simp), ih]

/-- `utf8Consume` never grows the remainder. -/
theorem utf8Consume_length (b : Nat) (rest r : List Nat)
    (h : utf8Consume b rest = some r) : r.length ≤ rest.length := by
  rcases rest with _ | ⟨c, _ | ⟨d, _ | ⟨e, t⟩⟩⟩ <;>
    · simp only [utf8Consume] at h
      split_ifs at h <;> simp_all <;> omega

/-- The fuel of `validUtf8Fuel` is irrelevant once it covers the length. -/
theorem validUtf8Fuel_congr :
    ∀ f1 f2 l, l.length ≤ f1 → l.length ≤ f2 →
      validUtf8Fuel f1 l = validUtf8Fuel f2 l := by
  intro f1
  induction f1 with
  | zero =>
    intro f2 l h1 _
    have : l = [] := List.eq_nil_of_length_eq_zero (by omega)
    subst this
    cases f2 <;> simp [validUtf8Fuel]
  | succ f1 ih =>
    intro f2 l h1 h2
    cases l with
    | nil => cases f2 <;> simp [validUtf8Fuel]
    | cons b rest =>
      cases f2 with
      | zero => simp at h2
      | succ f2 =>
        rw [validUtf8Fuel, validUtf8Fuel]
        cases hc : utf8Consume b rest with
        | none => simp
        | some r =>
          have hr := utf8Consume_length b rest r hc
          simp only [List.length_cons] at h1 h2
          exact ih f2 r (by omega) (by omega)

/-- One-step unfolding of `validUtf8`. -/
theorem validUtf8_cons (b : Nat) (rest : List Nat) :
    validUtf8 (b :: rest) =
      match utf8Consume b rest with
      | some r => validUtf8 r
      | none => false := by
  unfold validUtf8
  rw [show (b :: rest).length = rest.length + 1 from rfl, validUtf8Fuel]
  cases hc : utf8Consume b rest with
  | none => simp
  | some r =>
    have hr := utf8Consume_length b rest r hc
    simpa using validUtf8Fuel_congr rest.length r.length r (by omega) le_rfl

/-- Whatever `a2b` returns extends the already-accumulated output. -/
theorem a2b_acc :
    ∀ (input : List Nat) (qp lc pads : Nat) (acc out : List Nat),
      a2b input qp lc pads acc = some out → ∃ t, out = acc ++ t := by
  intro input
  induction input with
  | nil =>
    intro qp lc pads acc out h
    rw [a2b] at h
    by_cases hq : qp = 0
    · rw [if_pos hq] at h
      exact ⟨[], by simpa using h.symm⟩
    · rw [if_neg hq] at h
      exact absurd h (by simp)
  | cons ch rest ih =>
    intro qp lc pads acc out h
    rw [a2b] at h
    by_cases h61 : ch = 61
    · rw [if_pos h61] at h
      by_cases hq1 : 2 ≤ qp ∧ 4 ≤ qp + (pads + 1)
      · rw [if_pos hq1] at h
        exact ⟨[], by simpa using h.symm⟩
      · rw [if_neg hq1] at h
        by_cases hq2 : 2 ≤ qp
        · rw [if_pos hq2] at h
          exact ih _ _ _ _ _ h
        · rw [if_neg hq2] at h
          exact ih _ _ _ _ _ h
    · rw [if_neg h61] at h
      cases hd : decChar ch with
      | none =>
        rw [hd] at h
        exact ih _ _ _ _ _ h
      | some v =>
        rw [hd] at h
        rcases qp with _ | _ | _ | n
        · exact ih _ _ _ _ _ h
        · obtain ⟨t, ht⟩ := ih _ _ _ _ _ h
          exact ⟨(lc * 4 + v / 16) :: t, by simp [ht]⟩
        · obtain ⟨t, ht⟩ := ih _ _ _ _ _ h
          exact ⟨(lc * 16 + v / 4) :: t, by simp [ht]⟩
        · obtain ⟨t, ht⟩ := ih _ _ _ _ _ h
          exact ⟨(lc * 64 + v) :: t, by simp [ht]⟩

/-- `startswith p` holds for any extension of `p`. -/
theorem startswith_append (p r : List Nat) : startswith p (p ++ r) = true := by
  induction p with
  | nil => simp [startswith]
  | cons a p' ih => simpa [startswith] using ih

/-- `startswith p s` exposes `s` as `p` followed by a tail. -/
theorem startswith_exists (p : List Nat) :
    ∀ s, startswith p s = true → ∃ t, s = p ++ t := by
  induction p with
  | nil => intro s _; exact ⟨s, rfl⟩
  | cons a p' ih =>
    intro s h
    cases s with
    | nil => simp [startswith] at h
    | cons b s' =>
      rw [startswith] at h
      obtain ⟨hab, h'⟩ := Bool.and_eq_true_iff.mp h
      obtain ⟨t, ht⟩ := ih s' h'
      exact ⟨t, by simp [ht, (by simpa using hab : a = b)]⟩

/-- Pure-ASCII byte strings are valid UTF-8. -/
theorem ascii_validUtf8 (a : List Nat) (h : ∀ x ∈ a, x ≤ 127) :
    validUtf8 a = true := by
  induction a with
  | nil => rfl
  | cons b rest ih =>
    have hb : b ≤ 127 := h b (by simp)
    rw [validUtf8_cons, show utf8Consume b rest = some rest from by
      simp [utf8Consume, hb]]
    exact ih fun x hx => h x (by simp [hx])

/-- A successful `utf8Consume` is insensitive to bytes beyond the scalar it
    consumes. -/
theorem utf8Consume_append (b : Nat) (rest r B : List Nat)
    (h : utf8Consume b rest = some r) :
    utf8Consume b (rest ++ B) = some (r ++ B) := by
  rcases rest with _ | ⟨c, _ | ⟨d, _ | ⟨e, t⟩⟩⟩ <;>
    · simp only [utf8Consume, List.cons_append, List.nil_append] at h ⊢
      split_ifs at h ⊢ <;> simp_all <;> rw [← h] <;> simp

/-- Concatenating valid UTF-8 byte strings yields a valid UTF-8 byte
    string (UTF-8 is a prefix code). -/
theorem validUtf8_append (a B : List Nat) (ha : validUtf8 a = true)
    (hB : validUtf8 B = true) : validUtf8 (a ++ B) = true := by
  suffices H : ∀ n a, a.length ≤ n → validUtf8 a = true →
      validUtf8 (a ++ B) = true from H a.length a le_rfl ha
  intro n
  induction n with
  | zero =>
    intro a hlen _
    have : a = [] := List.eq_nil_of_length_eq_zero (by omega)
    subst this
    simpa using hB
  | succ n ih =>
    intro a hlen ha
    cases a with
    | nil => simpa using hB
    | cons b rest =>
      rw [validUtf8_cons] at ha
      cases hc : utf8Consume b rest with
      | none => rw [hc] at ha; simp at ha
      | some r =>
        rw [hc] at ha
        have hr := utf8Consume_length b rest r hc
        simp only [List.length_cons] at hlen
        rw [List.cons_append, validUtf8_cons, utf8Consume_append b rest r B hc]
        exact ih r (by omega) ha



/-- Any string that itself starts with the sentinel is never recognised as
    a *base64-encoded* unified id: its lead characters `l`, `i` force the
    first decoded byte to be 150, which is not a valid UTF-8 lead byte, so
    decoding falls into the `False` branch. -/
theorem isB64_sentinel_none (d : List Nat)
    (h : startswith managedFileSentinel d = true) :
    is_base64_encoded_unified_file_id d = none := by
  obtain ⟨t, rfl⟩ := startswith_exists _ _ h
  have hd : managedFileSentinel ++ t =
      108 :: 105 :: ([116, 101, 108, 108, 109, 95, 112, 114, 111, 120, 121] ++ t) := by
    simp [managedFileSentinel]
  rw [hd]
  unfold is_base64_encoded_unified_file_id
  have hrep : repad (108 :: 105 ::
      ([116, 101, 108, 108, 109, 95, 112, 114, 111, 120, 121] ++ t)) =
      108 :: 105 ::
        (([116, 101, 108, 108, 109, 95, 112, 114, 111, 120, 121] ++ t) ++
          List.replicate ((4 - (108 :: 105 ::
            ([116, 101, 108, 108, 109, 95, 112, 114, 111, 120, 121] ++ t)).length % 4) % 4) 61) := by
    simp [repad]
  rw [hrep]
  cases hu : urlsafe_b64decode (108 :: 105 ::
      (([116, 101, 108, 108, 109, 95, 112, 114, 111, 120, 121] ++ t) ++
        List.replicate ((4 - (108 :: 105 ::
          ([116, 101, 108, 108, 109, 95, 112, 114, 111, 120, 121] ++ t)).length % 4) % 4) 61)) with
  | none => rfl
  | some bytes =>
    unfold urlsafe_b64decode at hu
    split_ifs at hu with hall
    · rw [a2b_step0 108 37 _ _ _ _ (by omega) (by decide),
        a2b_step1 105 34 _ _ _ _ (by omega) (by decide)] at hu
      norm_num at hu
      obtain ⟨t', ht'⟩ := a2b_acc _ _ _ _ _ _ hu
      have h150 : validUtf8 bytes = false := by
        rw [ht']
        show validUtf8 (150 :: t') = false
        have hcons : utf8Consume 150 t' = none := by
          unfold utf8Consume
          norm_num
        rw [validUtf8_cons, hcons]
      simp [h150]

/-- Inversion for `is_base64_encoded_unified_file_id`: a returned token is
    exactly the base64 decode of the re-padded input, is valid UTF-8 and
    carries the sentinel. -/
theorem isB64_some (s d : List Nat)
    (h : is_base64_encoded_unified_file_id s = some d) :
    urlsafe_b64decode (repad s) = some d ∧ validUtf8 d = true ∧
      startswith managedFileSentinel d = true := by
  unfold is_base64_encoded_unified_file_id at h
  cases hu : urlsafe_b64decode (repad s) with
  | none => rw [hu] at h; simp at h
  | some bytes =>
    rw [hu] at h
    by_cases hv : validUtf8 bytes = true
    · by_cases hs : startswith managedFileSentinel bytes = true
      · simp [hv, hs] at h
        subst h
        exact ⟨rfl, hv, hs⟩
      · simp [hv, hs] at h
    · simp [hv] at h

/-- Introduction for `is_base64_encoded_unified_file_id`. -/
theorem isB64_of (s d : List Nat)
    (h1 : urlsafe_b64decode (repad s) = some d) (h2 : validUtf8 d = true)
    (h3 : startswith managedFileSentinel d = true) :
    is_base64_encoded_unified_file_id s = some d := by
  unfold is_base64_encoded_unified_file_id
  rw [h1]
  simp [h2, h3]

/-- **C4** — Round-trip of the Identifier Codec: for every content-type
    string and every UUID string (any valid-UTF-8 byte strings), rendering
    the unified token, URL-safe base64-encoding it and stripping `=`
    padding (`return_unified_file_id`'s `base64_unified_file_id`), then
    decoding via `_is_base64_encoded_unified_file_id`, recovers exactly the
    original unified token string. -/
theorem claim_C4_codec_round_trip (ct uuid : List Nat)
    (hct : validUtf8 ct = true) (huuid : validUtf8 uuid = true)
    (hct256 : ∀ x ∈ ct, x < 256) (huuid256 : ∀ x ∈ uuid, x < 256) :
    is_base64_encoded_unified_file_id
      (base64_unified_file_id (completeStr ct uuid)) =
      some (completeStr ct uuid) := by
  have v44 : validUtf8 [44] = true := by decide
  have hvalid : validUtf8 (completeStr ct uuid) = true := by
    have h2 := validUtf8_append [44] uuid v44 huuid
    have h3 := validUtf8_append ct ([44] ++ uuid) hct h2
    have h4 := validUtf8_append [44] (ct ++ ([44] ++ uuid)) v44 h3
    have h5 := validUtf8_append managedFileSentinel
      ([44] ++ (ct ++ ([44] ++ uuid))) (by decide) h4
    have he : completeStr ct uuid =
        managedFileSentinel ++ ([44] ++ (ct ++ ([44] ++ uuid))) := by
      simp [completeStr]
    rw [he]
    exact h5
  have hbytes : ∀ x ∈ completeStr ct uuid, x < 256 := by
    intro x hx
    simp only [completeStr, List.mem_append, List.mem_singleton] at hx
    rcases hx with ⟨⟨⟨hs | h44⟩ | hct'⟩ | h44'⟩ | hu
    · have : ∀ y ∈ managedFileSentinel, y < 256 := by decide
      exact this x hs
    · omega
    · exact hct256 x hct'
    · omega
    · exact huuid256 x hu
  unfold base64_unified_file_id is_base64_encoded_unified_file_id
  rw [repad_rstripEq_b64encode]
  have hdec : urlsafe_b64decode (b64encode (completeStr ct uuid)) =
      some (completeStr ct uuid) := by
    unfold urlsafe_b64decode
    rw [if_pos (List.all_eq_true.mpr fun x hx => by
      simpa using b64encode_lt128 _ x hx)]
    simpa using a2b_b64encode (completeStr ct uuid) hbytes []
  rw [hdec]
  have hsw : startswith managedFileSentinel (completeStr ct uuid) = true := by
    have he : completeStr ct uuid =
        managedFileSentinel ++ ([44] ++ ct ++ [44] ++ uuid) := by
      simp [completeStr]
    rw [he]
    exact startswith_append _ _
  simp [hvalid, hsw]

/-- Witness for C4 at `content_type = "a"`, `uuid = "0"`. -/
theorem claim_C4_codec_round_trip_witness :
    is_base64_encoded_unified_file_id
      (base64_unified_file_id (completeStr [97] [48])) =
      some (completeStr [97] [48]) :=
  claim_C4_codec_round_trip [97] [48] (by decide) (by decide)
    (by decide) (by decide)

/-- **C5** — Normalization is idempotent: for every string `x`,
    `convert_b64_uid_to_unified_uid (convert_b64_uid_to_unified_uid x) =
    convert_b64_uid_to_unified_uid x`. -/
theorem claim_C5_normalize_idempotent (x : List Nat) :
    convert_b64_uid_to_unified_uid (convert_b64_uid_to_unified_uid x) =
      convert_b64_uid_to_unified_uid x := by
  cases h : is_base64_encoded_unified_file_id x with
  | none =>
    have hx : convert_b64_uid_to_unified_uid x = x := by
      unfold convert_b64_uid_to_unified_uid
      rw [h]
    rw [hx, hx]
  | some d =>
    have hx : convert_b64_uid_to_unified_uid x = d := by
      unfold convert_b64_uid_to_unified_uid
      rw [h]
    have hd : is_base64_encoded_unified_file_id d = none :=
      isB64_sentinel_none d (isB64_some x d h).2.2
    have hdd : convert_b64_uid_to_unified_uid d = d := by
      unfold convert_b64_uid_to_unified_uid
      rw [hd]
    rw [hx, hdd]

/-- **C6** — `_is_base64_encoded_unified_file_id` is total (modelled as an
    `Option`-valued function: the Python `except Exception` maps every
    failure to `False`/`none`): it returns the decoded unified token
    exactly when the re-padded input URL-safe-base64-decodes to a valid
    UTF-8 string starting with the sentinel, and `False` otherwise; the
    empty string yields `False`, and an input (`"_w"`) whose decoded bytes
    (`0xFF`) are not valid UTF-8 yields `False` rather than an error. -/
theorem claim_C6_decode_total_characterization :
    (∀ s d, is_base64_encoded_unified_file_id s = some d ↔
      (urlsafe_b64decode (repad s) = some d ∧ validUtf8 d = true ∧
        startswith managedFileSentinel d = true)) ∧
    is_base64_encoded_unified_file_id [] = none ∧
    urlsafe_b64decode (repad [95, 119]) = some [255] ∧
    validUtf8 [255] = false ∧
    is_base64_encoded_unified_file_id [95, 119] = none := by
  refine ⟨fun s d => ⟨fun h => isB64_some s d h,
    fun h => isB64_of s d h.1 h.2.1 h.2.2⟩, by decide, by decide,
    by decide, by decide⟩

/-- Witness for C6: the characterization applied at a concrete input. -/
theorem claim_C6_decode_total_characterization_witness :
    is_base64_encoded_unified_file_id
      (base64_unified_file_id (completeStr [99] [49])) =
      some (completeStr [99] [49]) :=
  (claim_C6_decode_total_characterization.1
    (base64_unified_file_id (completeStr [99] [49]))
    (completeStr [99] [49])).mpr ⟨by decide, by decide, by decide⟩

/-- **C10** — The static method `_convert_b64_uid_to_unified_uid` and the
    instance method `convert_b64_uid_to_unified_uid` are extensionally
    equal: for every input string they return the same result. -/
theorem claim_C10_convert_static_eq_instance (b64_uid : List Nat) :
    convert_b64_uid_to_unified_uid_static b64_uid =
      convert_b64_uid_to_unified_uid b64_uid := rfl

/-- The response object shape (`OpenAIFileObject`) as far as this layer
    inspects it; only the fields this hook reads or constructs are kept. -/
structure OpenAIFileObject where
  id : List Nat
  purpose : List Nat
  created_at : Nat
  byteSize : Nat
  filename : List Nat
  fileStatus : List Nat
deriving DecidableEq

/-- A value stored in the internal usage cache: either a full file object
    or a backend mapping `model_id → model_file_id` (a Python dict,
    modelled as an association list in insertion order). -/
inductive PyValue
  | obj (f : OpenAIFileObject)
  | map (m : List (List Nat × List Nat))
deriving DecidableEq

/-- Python truthiness of an optional cache value: `None` and the empty
    dict are falsy, a file object and a non-empty dict are truthy. -/
def truthy : Option PyValue → Bool
  | none => false
  | some (.obj _) => true
  | some (.map m) => decide (m ≠ [])

/-- Externally observable effects of one operation, in order: cache reads
    and writes, and calls into the multi-backend dispatcher
    (`llm_router.afile_delete` / `llm_router.afile_content`). -/
inductive Event
  | cacheRead (key : List Nat)
  | cacheWrite (key : List Nat) (value : Option PyValue)
  | routerDelete (modelId : List Nat) (fileId : List Nat)
  | routerContent (modelId : List Nat) (fileId : List Nat)
deriving DecidableEq

/-- The internal usage cache, modelled as a write-history association list:
    a lookup returns the most recent write for a key. Writing `none`
    (Python `value=None`) is indistinguishable from an absent key on read,
    exactly as in the code. -/
abbrev Cache := List (List Nat × Option PyValue)

/-- `async_get_cache`'s value for a key. -/
def cacheLookup (key : List Nat) (c : Cache) : Option PyValue :=
  match c.find? (fun kv => kv.1 = key) with
  | some kv => kv.2
  | none => none

/-- `internal_usage_cache.async_get_cache(key=...)`. -/
def async_get_cache (key : List Nat) (c : Cache) :
    Option PyValue × List Event :=
  (cacheLookup key c, [.cacheRead key])

/-- `internal_usage_cache.async_set_cache(key=..., value=...)`. -/
def async_set_cache (key : List Nat) (v : Option PyValue) (c : Cache) :
    Cache × List Event :=
  ((key, v) :: c, [.cacheWrite key v])

/-- The cache key `f"litellm_proxy/{file_id}"` used for full file objects
    (bytes of `litellm_proxy/` followed by the id). -/
def litellm_proxy_key (file_id : List Nat) : List Nat :=
  [108, 105, 116, 101, 108, 108, 109, 95, 112, 114, 111, 120, 121, 47] ++ file_id

/-- `store_unified_file_id` (lines 69–83): write the full file object under
    `"litellm_proxy/" + file_id`. -/
def store_unified_file_id (file_id : List Nat) (file_object : OpenAIFileObject)
    (c : Cache) : Cache × List Event :=
  async_set_cache (litellm_proxy_key file_id) (some (.obj file_object)) c

/-- `get_unified_file_id` (lines 85–92): read the cache value under
    `"litellm_proxy/" + file_id` (returned untyped, as in the code). -/
def get_unified_file_id (file_id : List Nat) (c : Cache) :
    Option PyValue × List Event :=
  async_get_cache (litellm_proxy_key file_id) c

/-- Errors this layer raises; each constructor carries the semantic
    content of the corresponding `Exception(...)` message. -/
inductive Err
  | notFound (id : List Nat)
  | notFoundChecked (id : List Nat) (checkedModels : List (List Nat))
      (errors : List (List Nat × List Nat))
  | backendFailure (msg : List Nat)
  | typeErr
deriving DecidableEq

/-- `delete_unified_file_id` (lines 94–111): read the old value under
    `"litellm_proxy/" + file_id`; raise NotFound unless it is a file
    object; overwrite the key with `None` and return the old value. -/
def delete_unified_file_id (file_id : List Nat) (c : Cache) :
    Except Err OpenAIFileObject × Cache × List Event :=
  let r1 := async_get_cache (litellm_proxy_key file_id) c
  match r1.1 with
  | some (.obj f) =>
    let r2 := async_set_cache (litellm_proxy_key file_id) none c
    (.ok f, r2.1, r1.2 ++ r2.2)
  | _ => (.error (.notFound file_id), c, r1.2)

/-- The managed-id filter of `get_model_file_id_mapping` (lines 234–241):
    a base64-encoded unified id is decoded, a raw sentinel-prefixed id is
    kept, anything else is dropped. -/
def managed_filter (file_id : List Nat) : Option (List Nat) :=
  match is_base64_encoded_unified_file_id file_id with
  | some decoded => some decoded
  | none =>
    if startswith managedFileSentinel file_id then some file_id else none

/-- The lookup loop of `get_model_file_id_mapping` (lines 245–254): read
    each managed id's cache entry and keep the truthy ones. -/
def lookup_mapping_entries (c : Cache) :
    List (List Nat) → List (List Nat × PyValue) × List Event
  | [] => ([], [])
  | fid :: rest =>
    let r := lookup_mapping_entries c rest
    match cacheLookup fid c with
    | some pv =>
      if truthy (some pv) then ((fid, pv) :: r.1, .cacheRead fid :: r.2)
      else (r.1, .cacheRead fid :: r.2)
    | none => (r.1, .cacheRead fid :: r.2)

/-- `get_model_file_id_mapping` (lines 212–256). -/
def get_model_file_id_mapping (file_ids : List (List Nat)) (c : Cache) :
    List (List Nat × PyValue) × List Event :=
  lookup_mapping_entries c (file_ids.filterMap managed_filter)

/-- `dict.get` on the mapping returned by `get_model_file_id_mapping`. -/
def mappingGet (k : List Nat) (m : List (List Nat × PyValue)) :
    Option PyValue :=
  (m.find? (fun kv => kv.1 = k)).map (fun kv => kv.2)

/-- The external multi-backend dispatcher (`llm_router`): each call either
    succeeds or fails with an error message (`str(e)`). -/
structure Router where
  afile_delete : List Nat → List Nat → Except (List Nat) Unit
  afile_content : List Nat → List Nat → Except (List Nat) (List Nat)

/-- The delete fan-out loop of `afile_delete` (lines 357–359), including
    the Python loop variable `file_id` that *shadows* the function's own
    `file_id` and leaks its last value out of the loop: `cur` is that
    variable's value. There is no `try/except`: a dispatcher failure
    aborts the loop and propagates. -/
def delete_fanout (r : Router) :
    List (List Nat × List Nat) → List Nat → Except (List Nat) (List Nat) × List Event
  | [], cur => (.ok cur, [])
  | (m, f) :: rest, _ =>
    match r.afile_delete m f with
    | .ok _ =>
      let res := delete_fanout r rest f
      (res.1, .routerDelete m f :: res.2)
    | .error e => (.error e, [.routerDelete m f])

/-- `afile_delete` (lines 345–367): normalize the id, resolve the backend
    mapping, fan out deletes (uncaught failures propagate as
    `backendFailure`), then delete the unified file object entry — under
    the key left in the (shadowed) `file_id` variable — and return it. -/
def afile_delete (file_id : List Nat) (c : Cache) (r : Router) :
    Except Err OpenAIFileObject × Cache × List Event :=
  let fid := convert_b64_uid_to_unified_uid file_id
  let m := get_model_file_id_mapping [fid] c
  match mappingGet fid m.1 with
  | some v =>
    if truthy (some v) then
      match v with
      | .map entries =>
        match delete_fanout r entries fid with
        | (.ok lastFid, ev2) =>
          let d := delete_unified_file_id lastFid c
          (d.1, d.2.1, m.2 ++ ev2 ++ d.2.2)
        | (.error e, ev2) => (.error (.backendFailure e), c, m.2 ++ ev2)
      | .obj _ => (.error .typeErr, c, m.2)
    else
      let d := delete_unified_file_id fid c
      (d.1, d.2.1, m.2 ++ d.2.2)
  | none =>
    let d := delete_unified_file_id fid c
    (d.1, d.2.1, m.2 ++ d.2.2)

/-- The content fan-out loop of `afile_content` (lines 386–394): try each
    backend in mapping order, return the first success; individual
    failures are caught into `exception_dict` and, after all backends
    fail, reported together with all checked model ids. -/
def content_fanout (r : Router) (initial : List Nat)
    (allKeys : List (List Nat)) :
    List (List Nat × List Nat) → List (List Nat × List Nat) →
      Except Err (List Nat) × List Event
  | [], errs => (.error (.notFoundChecked initial allKeys errs), [])
  | (m, f) :: rest, errs =>
    match r.afile_content m f with
    | .ok s => (.ok s, [.routerContent m f])
    | .error e =>
      let res := content_fanout r initial allKeys rest (errs ++ [(m, e)])
      (res.1, .routerContent m f :: res.2)

/-- `afile_content` (lines 369–398): keep the initial id for error
    messages, normalize, resolve the backend mapping, and fan out content
    fetches; no mapping means NotFound with no dispatcher call. -/
def afile_content (file_id : List Nat) (c : Cache) (r : Router) :
    Except Err (List Nat) × Cache × List Event :=
  let initial := file_id
  let unified := convert_b64_uid_to_unified_uid file_id
  let m := get_model_file_id_mapping [unified] c
  match mappingGet unified m.1 with
  | some v =>
    if truthy (some v) then
      match v with
      | .map entries =>
        let res := content_fanout r initial (entries.map Prod.fst) entries []
        (res.1, c, m.2 ++ res.2)
      | .obj _ => (.error .typeErr, c, m.2)
    else (.error (.notFound initial), c, m.2)
  | none => (.error (.notFound initial), c, m.2)

/-- `afile_retrieve` (lines 326–335): read the stored object under the
    *caller-supplied* identifier (no normalization) and raise NotFound on
    a falsy result. -/
def afile_retrieve (file_id : List Nat) (c : Cache) :
    Except Err PyValue × Cache × List Event :=
  let g := get_unified_file_id file_id c
  match g.1 with
  | some v =>
    if truthy (some v) then (.ok v, c, g.2)
    else (.error (.notFound file_id), c, g.2)
  | none => (.error (.notFound file_id), c, g.2)

/-- One entry of a user message's content list: a part whose `"type"` is
    `"file"` (carrying the optional `file["file_id"]` field) or any other
    part (its `"type"` recorded). -/
inductive ChatContentPart
  | filePart (file_id : Option (List Nat))
  | otherPart (ctype : List Nat)
deriving DecidableEq

/-- A message's `"content"`: either a plain string or a list of parts. -/
inductive MessageContent
  | strContent (s : List Nat)
  | partsContent (parts : List ChatContentPart)
deriving DecidableEq

/-- A chat message: optional `"role"` and optional `"content"`. -/
structure ChatMessage where
  role : Option (List Nat)
  content : Option MessageContent
deriving DecidableEq

/-- The request payload `data` as far as this hook touches it. -/
structure RequestData where
  messages : Option (List ChatMessage)
  model_file_id_mapping : Option (List (List Nat × PyValue))
deriving DecidableEq

/-- Bytes of `"user"`. -/
def userRole : List Nat := [117, 115, 101, 114]

/-- Bytes of `"completion"` (`CallTypes.completion.value`). -/
def completionCallType : List Nat :=
  [99, 111, 109, 112, 108, 101, 116, 105, 111, 110]

/-- The inner loop of
    `get_file_ids_and_decode_b64_to_unified_uid_from_messages`
    (lines 163–178): for each part of type `"file"` with a truthy
    `file_id`, append the normalized id to the collected list and write
    the normalized id back into the part. -/
def process_parts :
    List ChatContentPart → List (List Nat) × List ChatContentPart
  | [] => ([], [])
  | .filePart (some fid) :: rest =>
    let r := process_parts rest
    if fid ≠ [] then
      (convert_b64_uid_to_unified_uid_static fid :: r.1,
        .filePart (some (convert_b64_uid_to_unified_uid_static fid)) :: r.2)
    else (r.1, .filePart (some fid) :: r.2)
  | p :: rest =>
    let r := process_parts rest
    (r.1, p :: r.2)

/-- The outer loop over messages (lines 157–178): only user-role messages
    with a truthy, non-string content are scanned. -/
def process_message (m : ChatMessage) : List (List Nat) × ChatMessage :=
  if m.role = some userRole then
    match m.content with
    | some (.partsContent parts) =>
      if parts ≠ [] then
        let r := process_parts parts
        (r.1, { m with content := some (.partsContent r.2) })
      else ([], m)
    | _ => ([], m)
  else ([], m)

/-- `get_file_ids_and_decode_b64_to_unified_uid_from_messages`
    (lines 150–179); the returned list of messages reflects the in-place
    mutation of the parts. -/
def get_file_ids_and_decode_b64_to_unified_uid_from_messages :
    List ChatMessage → List (List Nat) × List ChatMessage
  | [] => ([], [])
  | m :: rest =>
    let r1 := process_message m
    let r2 := get_file_ids_and_decode_b64_to_unified_uid_from_messages rest
    (r1.1 ++ r2.1, r1.2 :: r2.2)

/-- `async_pre_call_hook` (lines 113–148): on a completion-type call with
    truthy messages, scan and normalize the file ids in place; when any
    were found, resolve them and attach the result under
    `"model_file_id_mapping"`. -/
def async_pre_call_hook (call_type : List Nat) (data : RequestData)
    (c : Cache) : RequestData × List Event :=
  if call_type = completionCallType then
    match data.messages with
    | some msgs =>
      if msgs ≠ [] then
        let r := get_file_ids_and_decode_b64_to_unified_uid_from_messages msgs
        let data2 : RequestData := { data with messages := some r.2 }
        if r.1 ≠ [] then
          let mm := get_model_file_id_mapping r.1 c
          ({ data2 with model_file_id_mapping := some mm.1 }, mm.2)
        else (data2, [])
      else (data, [])
    | none => (data, [])
  else (data, [])

/-- The dispatcher delete calls recorded in an event trace, in order. -/
def routerDeleteCalls (evs : List Event) : List (List Nat × List Nat) :=
  evs.filterMap fun e =>
    match e with
    | .routerDelete m f => some (m, f)
    | _ => none

/-- The dispatcher content calls recorded in an event trace, in order. -/
def routerContentCalls (evs : List Event) : List (List Nat × List Nat) :=
  evs.filterMap fun e =>
    match e with
    | .routerContent m f => some (m, f)
    | _ => none

/-- **C9** — Unified-object store semantics: a `get_unified_file_id` after
    `store_unified_file_id U V` returns `V`; `delete_unified_file_id`
    returns the value stored immediately before deletion and fails with
    NotFound when no file object is present; after a successful delete, a
    subsequent get returns empty and a second delete fails with
    NotFound. -/
theorem claim_C9_unified_store_semantics :
    (∀ (U : List Nat) (V : OpenAIFileObject) (c : Cache),
      (get_unified_file_id U ((store_unified_file_id U V c).1)).1 =
        some (.obj V)) ∧
    (∀ (U : List Nat) (V : OpenAIFileObject) (c : Cache),
      (get_unified_file_id U c).1 = some (.obj V) →
        (delete_unified_file_id U c).1 = .ok V) ∧
    (∀ (U : List Nat) (c : Cache),
      (∀ f, (get_unified_file_id U c).1 ≠ some (.obj f)) →
        (delete_unified_file_id U c).1 = .error (.notFound U)) ∧
    (∀ (U : List Nat) (V : OpenAIFileObject) (c c' : Cache)
        (ev : List Event),
      delete_unified_file_id U c = (.ok V, c', ev) →
        (get_unified_file_id U c').1 = none ∧
          (delete_unified_file_id U c').1 = .error (.notFound U)) := by
  refine ⟨?_, ?_, ?_, ?_⟩
  · intro U V c
    simp [get_unified_file_id, store_unified_file_id, async_get_cache,
      async_set_cache, cacheLookup]
  · intro U V c h
    simp only [get_unified_file_id, async_get_cache] at h
    simp [delete_unified_file_id, async_get_cache, async_set_cache, h]
  · intro U c h
    simp only [get_unified_file_id, async_get_cache] at h
    unfold delete_unified_file_id async_get_cache
    cases hv : cacheLookup (litellm_proxy_key U) c with
    | none => simp
    | some pv =>
      cases pv with
      | obj f => exact absurd (by simp [hv]) (h f)
      | map m => simp
  · intro U V c c' ev h
    unfold delete_unified_file_id async_get_cache async_set_cache at h
    cases hv : cacheLookup (litellm_proxy_key U) c with
    | none => rw [hv] at h; simp at h
    | some pv =>
      cases pv with
      | obj f =>
        rw [hv] at h
        simp at h
        obtain ⟨rfl, rfl, rfl⟩ := h
        constructor
        · simp [get_unified_file_id, async_get_cache, cacheLookup]
        · simp [delete_unified_file_id, async_get_cache, cacheLookup]
      | map m => rw [hv] at h; simp at h

/-- A sample stored file object for concrete instantiations. -/
def sampleFile : OpenAIFileObject :=
  { id := [120], purpose := [97], created_at := 1, byteSize := 2,
    filename := [102], fileStatus := [115] }

/-- Witness for C9 at `U = "u"` (byte 117), the sample object and the
    empty cache: store-then-get returns the object, store-then-delete
    returns it, and the post-delete get/delete behave as stated. -/
theorem claim_C9_unified_store_semantics_witness :
    (get_unified_file_id [117]
        ((store_unified_file_id [117] sampleFile []).1)).1 =
      some (.obj sampleFile) ∧
    (delete_unified_file_id [117]
        ((store_unified_file_id [117] sampleFile []).1)).1 = .ok sampleFile ∧
    (get_unified_file_id [117]
        ((delete_unified_file_id [117]
          ((store_unified_file_id [117] sampleFile []).1)).2.1)).1 = none ∧
    (delete_unified_file_id [117]
        ((delete_unified_file_id [117]
          ((store_unified_file_id [117] sampleFile []).1)).2.1)).1 =
      .error (.notFound [117]) := by
  refine ⟨claim_C9_unified_store_semantics.1 [117] sampleFile [],
    claim_C9_unified_store_semantics.2.1 [117] sampleFile _ (by decide),
    (claim_C9_unified_store_semantics.2.2.2 [117] sampleFile
      [(litellm_proxy_key [117], some (.obj sampleFile))]
      ((litellm_proxy_key [117], none) ::
        [(litellm_proxy_key [117], some (.obj sampleFile))])
      [.cacheRead (litellm_proxy_key [117]),
        .cacheWrite (litellm_proxy_key [117]) none]
      rfl).1,
    (claim_C9_unified_store_semantics.2.2.2 [117] sampleFile
      [(litellm_proxy_key [117], some (.obj sampleFile))]
      ((litellm_proxy_key [117], none) ::
        [(litellm_proxy_key [117], some (.obj sampleFile))])
      [.cacheRead (litellm_proxy_key [117]),
        .cacheWrite (litellm_proxy_key [117]) none]
      rfl).2⟩

instance {e a : Type} [DecidableEq e] [DecidableEq a] :
    DecidableEq (Except e a) := fun x y =>
  match x, y with
  | .ok u, .ok v =>
    if h : u = v then isTrue (by rw [h])
    else isFalse (fun hc => h (by injection hc))
  | .error u, .error v =>
    if h : u = v then isTrue (by rw [h])
    else isFalse (fun hc => h (by injection hc))
  | .ok _, .error _ => isFalse (fun hc => Except.noConfusion hc)
  | .error _, .ok _ => isFalse (fun hc => Except.noConfusion hc)

/-- A concrete unified token: `completeStr "a" "0"`. -/
def tok0 : List Nat := completeStr [97] [48]

/-- The base64 external form of `tok0`. -/
def b64id0 : List Nat := base64_unified_file_id tok0

/-- A cache holding the sample object under the *normalized* token's
    object key. -/
def cache1 : Cache := [(litellm_proxy_key tok0, some (.obj sampleFile))]

/-- **C1 (counterexample)** — `afile_retrieve` does *not* normalize: called
    with the base64 form whose normalization is `tok0`, it reads the cache
    at the raw base64 key and misses the object stored under the
    normalized key, while a call with the normalized form finds it; so the
    identifier used for its cache lookup is not
    `convert_b64_uid_to_unified_uid(id)`. -/
theorem claim_C1_counterexample :
    convert_b64_uid_to_unified_uid b64id0 = tok0 ∧
    b64id0 ≠ tok0 ∧
    (afile_retrieve b64id0 cache1).2.2 =
      [.cacheRead (litellm_proxy_key b64id0)] ∧
    litellm_proxy_key b64id0 ≠ litellm_proxy_key tok0 ∧
    (afile_retrieve b64id0 cache1).1 = .error (.notFound b64id0) ∧
    (afile_retrieve tok0 cache1).1 = .ok (.obj sampleFile) := by
  refine ⟨by decide, by decide, by decide, by decide, by decide, by decide⟩

/-- A managed-filter list with one sentinel-prefixed id keeps exactly
    that id. -/
theorem filterMap_managed_single (U : List Nat)
    (hU : startswith managedFileSentinel U = true) :
    [U].filterMap managed_filter = [U] := by
  simp [managed_filter, isB64_sentinel_none U hU, hU]

/-- A normalized id that is not sentinel-prefixed is dropped by the
    managed filter. -/
theorem filterMap_unmanaged_single (id : List Nat)
    (h : startswith managedFileSentinel (convert_b64_uid_to_unified_uid id) =
      false) :
    [convert_b64_uid_to_unified_uid id].filterMap managed_filter = [] := by
  cases hb : is_base64_encoded_unified_file_id id with
  | some d =>
    have : convert_b64_uid_to_unified_uid id = d := by
      unfold convert_b64_uid_to_unified_uid
      rw [hb]
    rw [this] at h
    exact absurd (isB64_some id d hb).2.2 (by simp [h])
  | none =>
    have hc : convert_b64_uid_to_unified_uid id = id := by
      unfold convert_b64_uid_to_unified_uid
      rw [hb]
    rw [hc] at h ⊢
    simp [managed_filter, hb, h]

/-- `get_model_file_id_mapping` on a single managed id: exactly one cache
    read, at that id, and the mapping keeps the entry iff it is truthy. -/
theorem gmfim_managed (U : List Nat) (c : Cache)
    (hU : startswith managedFileSentinel U = true) :
    get_model_file_id_mapping [U] c =
      ((match cacheLookup U c with
        | some pv => if truthy (some pv) then [(U, pv)] else []
        | none => []), [.cacheRead U]) := by
  unfold get_model_file_id_mapping
  rw [filterMap_managed_single U hU]
  unfold lookup_mapping_entries
  cases hv : cacheLookup U c with
  | none => simp [lookup_mapping_entries]
  | some pv =>
    by_cases ht : truthy (some pv) = true <;>
      simp [lookup_mapping_entries, ht]

/-- `get_model_file_id_mapping` on a single unmanaged id: no cache read
    and an empty mapping. -/
theorem gmfim_unmanaged (id : List Nat) (c : Cache)
    (h : startswith managedFileSentinel (convert_b64_uid_to_unified_uid id) =
      false) :
    get_model_file_id_mapping [convert_b64_uid_to_unified_uid id] c =
      ([], []) := by
  unfold get_model_file_id_mapping
  rw [filterMap_unmanaged_single id h]
  rfl

/-- **C1 (amended)** — `afile_delete` and `afile_content` normalize the
    caller-supplied identifier first and use the normalized id as the key
    of their backend-mapping cache lookup (no lookup happens when the
    normalized id is not sentinel-prefixed); `afile_retrieve` instead
    performs its single cache lookup with the caller-supplied identifier
    unnormalized. -/
theorem claim_C1_amended_normalization (id : List Nat) (c : Cache)
    (r : Router) :
    (afile_retrieve id c).2.2 = [.cacheRead (litellm_proxy_key id)] ∧
    (startswith managedFileSentinel (convert_b64_uid_to_unified_uid id) =
        true →
      (∃ ev, (afile_content id c r).2.2 =
        .cacheRead (convert_b64_uid_to_unified_uid id) :: ev) ∧
      (∃ ev, (afile_delete id c r).2.2 =
        .cacheRead (convert_b64_uid_to_unified_uid id) :: ev)) ∧
    (startswith managedFileSentinel (convert_b64_uid_to_unified_uid id) =
        false →
      (afile_content id c r).2.2 = [] ∧
      (afile_delete id c r).2.2 =
        (delete_unified_file_id (convert_b64_uid_to_unified_uid id) c).2.2) := by
  refine ⟨?_, ?_, ?_⟩
  · unfold afile_retrieve get_unified_file_id async_get_cache
    cases cacheLookup (litellm_proxy_key id) c with
    | none => simp
    | some pv =>
      by_cases ht : truthy (some pv) = true <;> simp [ht]
  · intro hU
    constructor
    · simp only [afile_content]
      rw [gmfim_managed _ c hU]
      cases hv : cacheLookup (convert_b64_uid_to_unified_uid id) c with
      | none => exact ⟨[], rfl⟩
      | some pv =>
        by_cases ht : truthy (some pv) = true
        · simp only [ht, if_true]
          cases pv with
          | obj f => exact ⟨[], by simp [mappingGet, ht]⟩
          | map entries =>
            exact ⟨(content_fanout r id (entries.map Prod.fst) entries
              []).2, by simp [mappingGet, ht]⟩
        · simp only [ht]
          exact ⟨[], by simp [mappingGet, ht]⟩
    · simp only [afile_delete]
      rw [gmfim_managed _ c hU]
      cases hv : cacheLookup (convert_b64_uid_to_unified_uid id) c with
      | none =>
        exact ⟨(delete_unified_file_id
          (convert_b64_uid_to_unified_uid id) c).2.2, rfl⟩
      | some pv =>
        by_cases ht : truthy (some pv) = true
        · simp only [ht, if_true]
          cases pv with
          | obj f => exact ⟨[], by simp [mappingGet, ht]⟩
          | map entries =>
            cases hf : delete_fanout r entries
              (convert_b64_uid_to_unified_uid id) with
            | mk res ev2 =>
              cases res with
              | ok lastFid =>
                exact ⟨ev2 ++ (delete_unified_file_id lastFid c).2.2,
                  by simp [mappingGet, ht, hf]⟩
              | error e =>
                exact ⟨ev2, by simp [mappingGet, ht, hf]⟩
        · simp only [ht]
          exact ⟨(delete_unified_file_id
            (convert_b64_uid_to_unified_uid id) c).2.2,
            by simp [mappingGet, ht]⟩
  · intro hU
    constructor
    · simp only [afile_content]
      rw [gmfim_unmanaged id c hU]
      simp [mappingGet]
    · simp only [afile_delete]
      rw [gmfim_unmanaged id c hU]
      simp [mappingGet]

/-- A dispatcher on which every call succeeds. -/
def okRouter : Router :=
  { afile_delete := fun _ _ => .ok (),
    afile_content := fun _ _ => .ok [99] }

/-- Witness for the amended C1 at a concrete unmanaged id (`"f"`) and at
    the concrete managed token `tok0`. -/
theorem claim_C1_amended_normalization_witness :
    (afile_retrieve [102] cache1).2.2 =
      [.cacheRead (litellm_proxy_key [102])] ∧
    (∃ ev, (afile_content tok0 cache1 okRouter).2.2 =
      .cacheRead tok0 :: ev) ∧
    (∃ ev, (afile_delete tok0 cache1 okRouter).2.2 =
      .cacheRead tok0 :: ev) :=
  ⟨(claim_C1_amended_normalization [102] cache1 okRouter).1,
    ((claim_C1_amended_normalization tok0 cache1 okRouter).2.1 (by decide)).1,
    ((claim_C1_amended_normalization tok0 cache1 okRouter).2.1 (by decide)).2⟩

/-- The backend mapping `{"m1": "f1", "m2": "f2"}`. -/
def mapEntries2 : List (List Nat × List Nat) :=
  [([109, 49], [102, 49]), ([109, 50], [102, 50])]

/-- A cache holding the two-backend mapping for `tok0` and the stored
    object under `tok0`'s object key. -/
def cache2 : Cache :=
  [(tok0, some (.map mapEntries2)),
    (litellm_proxy_key tok0, some (.obj sampleFile))]

/-- A dispatcher whose delete fails (with message `"boom"`) exactly on
    backend `"m1"`. -/
def failRouter : Router :=
  { afile_delete := fun m _ =>
      if m = [109, 49] then .error [98, 111, 111, 109] else .ok (),
    afile_content := fun _ _ => .error [101] }

/-- **C2 (counterexample)** — the delete fan-out has no `try/except`: with
    a two-backend mapping whose first backend's delete fails, the failure
    propagates uncaught out of `afile_delete` (as the dispatcher's own
    exception) and the second backend's delete is never attempted. -/
theorem claim_C2_counterexample :
    (afile_delete tok0 cache2 failRouter).1 =
      .error (.backendFailure [98, 111, 111, 109]) ∧
    routerDeleteCalls (afile_delete tok0 cache2 failRouter).2.2 =
      [([109, 49], [102, 49])] := by
  refine ⟨by decide, by decide⟩

/-- Dispatcher delete events for a list of `(model_id, file_id)` pairs. -/
def routerDeleteEvents (l : List (List Nat × List Nat)) : List Event :=
  l.map fun p => .routerDelete p.1 p.2

/-- The value of the Python loop variable `file_id` after iterating a
    mapping's items: the last pair's backend file id, or the pre-loop value
    when the mapping is empty. -/
def lastFidVar (entries : List (List Nat × List Nat)) (cur : List Nat) :
    List Nat :=
  match entries with
  | [] => cur
  | (_, f) :: rest => lastFidVar rest f

/-- The fan-out on an all-successful dispatcher visits every entry and
    leaks the last backend file id into the loop variable. -/
theorem delete_fanout_all_ok (r : Router)
    (entries : List (List Nat × List Nat))
    (h : ∀ e ∈ entries, r.afile_delete e.1 e.2 = .ok ()) :
    ∀ cur, delete_fanout r entries cur =
      (.ok (lastFidVar entries cur), routerDeleteEvents entries) := by
  induction entries with
  | nil => intro cur; simp [delete_fanout, routerDeleteEvents, lastFidVar]
  | cons e rest ih =>
    intro cur
    obtain ⟨m, f⟩ := e
    have hok : r.afile_delete m f = .ok () := h (m, f) (by simp)
    rw [delete_fanout, hok, ih (fun e he => h e (by simp [he])) f]
    simp [routerDeleteEvents, lastFidVar]

/-- The fan-out stops at the first failing backend and propagates its
    error; later entries are not visited. -/
theorem delete_fanout_first_fail (r : Router)
    (pre : List (List Nat × List Nat)) (m f : List Nat)
    (post : List (List Nat × List Nat)) (e : List Nat)
    (hpre : ∀ p ∈ pre, r.afile_delete p.1 p.2 = .ok ())
    (hf : r.afile_delete m f = .error e) :
    ∀ cur, delete_fanout r (pre ++ (m, f) :: post) cur =
      (.error e, routerDeleteEvents (pre ++ [(m, f)])) := by
  induction pre with
  | nil =>
    intro cur
    rw [List.nil_append, delete_fanout, hf]
    simp [routerDeleteEvents]
  | cons p rest ih =>
    intro cur
    obtain ⟨pm, pf⟩ := p
    have hok : r.afile_delete pm pf = .ok () := hpre (pm, pf) (by simp)
    rw [List.cons_append, delete_fanout, hok,
      ih (fun q hq => hpre q (by simp [hq])) pf]
    simp [routerDeleteEvents]

/-- `get_model_file_id_mapping` on a single managed id whose cache entry
    is truthy returns exactly that entry. -/
theorem gmfim_managed_truthy (U : List Nat) (c : Cache) (pv : PyValue)
    (hU : startswith managedFileSentinel U = true)
    (hv : cacheLookup U c = some pv) (ht : truthy (some pv) = true) :
    get_model_file_id_mapping [U] c = ([(U, pv)], [.cacheRead U]) := by
  rw [gmfim_managed U c hU, hv]
  simp [ht]

/-- `routerDeleteCalls` splits over appended traces. -/
theorem routerDeleteCalls_append (a b : List Event) :
    routerDeleteCalls (a ++ b) =
      routerDeleteCalls a ++ routerDeleteCalls b := by
  simp [routerDeleteCalls]

/-- The delete events of a pair list project back to the pair list. -/
theorem routerDeleteCalls_events (l : List (List Nat × List Nat)) :
    routerDeleteCalls (routerDeleteEvents l) = l := by
  induction l with
  | nil => rfl
  | cons p rest ih =>
    obtain ⟨m, f⟩ := p
    simpa [routerDeleteCalls, routerDeleteEvents] using ih

/-- `delete_unified_file_id` performs no dispatcher calls. -/
theorem routerDeleteCalls_delete_unified (fid : List Nat) (c : Cache) :
    routerDeleteCalls (delete_unified_file_id fid c).2.2 = [] := by
  unfold delete_unified_file_id async_get_cache async_set_cache
  cases hv : cacheLookup (litellm_proxy_key fid) c with
  | none => simp [routerDeleteCalls]
  | some pv => cases pv <;> simp [routerDeleteCalls]

/-- A cache read contributes no dispatcher delete call. -/
theorem routerDeleteCalls_cacheRead (k : List Nat) (evs : List Event) :
    routerDeleteCalls (.cacheRead k :: evs) = routerDeleteCalls evs := rfl

/-- **C2 (amended)** — in `afile_delete`, when a backend mapping exists for
    the normalized identifier, backend-specific deletes are issued through
    the dispatcher in mapping order, but only until the first failure: if
    every backend's delete succeeds, every backend is attempted; if some
    backend's delete fails, the failure propagates uncaught out of
    `afile_delete` (surfacing as that backend's own error) and the
    remaining backends' deletes are *not* attempted. -/
theorem claim_C2_amended_delete_fanout (U : List Nat) (c : Cache)
    (r : Router) (entries : List (List Nat × List Nat))
    (hU : startswith managedFileSentinel U = true)
    (hmap : cacheLookup U c = some (.map entries)) (hne : entries ≠ []) :
    ((∀ e ∈ entries, r.afile_delete e.1 e.2 = .ok ()) →
      routerDeleteCalls (afile_delete U c r).2.2 = entries) ∧
    (∀ pre m f post e, entries = pre ++ (m, f) :: post →
      (∀ p ∈ pre, r.afile_delete p.1 p.2 = .ok ()) →
      r.afile_delete m f = .error e →
      (afile_delete U c r).1 = .error (.backendFailure e) ∧
      routerDeleteCalls (afile_delete U c r).2.2 = pre ++ [(m, f)]) := by
  have hcu : convert_b64_uid_to_unified_uid U = U := by
    unfold convert_b64_uid_to_unified_uid
    rw [isB64_sentinel_none U hU]
  have ht : truthy (some (PyValue.map entries)) = true := by
    simp [truthy, hne]
  constructor
  · intro hok
    simp only [afile_delete, hcu]
    rw [gmfim_managed_truthy U c (PyValue.map entries) hU hmap ht]
    simp [mappingGet, ht, delete_fanout_all_ok r entries hok U,
      routerDeleteCalls_append, routerDeleteCalls_events,
      routerDeleteCalls_delete_unified, routerDeleteCalls_cacheRead]
  · intro pre m f post e hsplit hpre hf
    simp only [afile_delete, hcu]
    rw [gmfim_managed_truthy U c (PyValue.map entries) hU hmap ht]
    subst hsplit
    simp [mappingGet, ht, delete_fanout_first_fail r pre m f post e hpre hf U,
      routerDeleteCalls_append, routerDeleteCalls_events,
      routerDeleteCalls_delete_unified, routerDeleteCalls_cacheRead]

/-- Witness for the amended C2: on the two-backend mapping, the failing
    dispatcher stops after the first delete and propagates, while the
    all-successful dispatcher visits both backends. -/
theorem claim_C2_amended_delete_fanout_witness :
    (afile_delete tok0 cache2 failRouter).1 =
      .error (.backendFailure [98, 111, 111, 109]) ∧
    routerDeleteCalls (afile_delete tok0 cache2 failRouter).2.2 =
      [([109, 49], [102, 49])] ∧
    routerDeleteCalls (afile_delete tok0 cache2 okRouter).2.2 =
      mapEntries2 := by
  refine ⟨?_, ?_, ?_⟩
  · exact ((claim_C2_amended_delete_fanout tok0 cache2 failRouter mapEntries2
      (by decide) (by decide) (by decide)).2 [] [109, 49] [102, 49]
      [([109, 50], [102, 50])] [98, 111, 111, 109] (by decide) (by simp)
      (by decide)).1
  · exact ((claim_C2_amended_delete_fanout tok0 cache2 failRouter mapEntries2
      (by decide) (by decide) (by decide)).2 [] [109, 49] [102, 49]
      [([109, 50], [102, 50])] [98, 111, 111, 109] (by decide) (by simp)
      (by decide)).2
  · exact (claim_C2_amended_delete_fanout tok0 cache2 okRouter mapEntries2
      (by decide) (by decide) (by decide)).1 (by decide)

/-- A cache holding a one-backend mapping (`{"m1": "f1"}`) for `tok0` and
    the stored object under `tok0`'s object key. -/
def cache3 : Cache :=
  [(tok0, some (.map [([109, 49], [102, 49])])),
    (litellm_proxy_key tok0, some (.obj sampleFile))]

/-- **C3 (code bug, evaluation at the failing input)** — with a stored
    object under `"litellm_proxy/" + tok0` and the one-backend mapping
    `{"m1": "f1"}`, a delete for `tok0` on an all-successful dispatcher:
    issues exactly one dispatcher delete with `("m1", "f1")` (as the claim
    states), but then — because the fan-out loop's variable shadows
    `file_id` — looks up and "deletes" the key
    `"litellm_proxy/" + "f1"` instead of `"litellm_proxy/" + tok0`,
    raises NotFound (mentioning `"f1"`), and leaves the stored object for
    `tok0` in place, even though `delete_unified_file_id tok0` itself
    would have returned it. -/
theorem claim_C3_shadowed_delete_key :
    (afile_delete tok0 cache3 okRouter).1 =
      .error (.notFound [102, 49]) ∧
    routerDeleteCalls (afile_delete tok0 cache3 okRouter).2.2 =
      [([109, 49], [102, 49])] ∧
    cacheLookup (litellm_proxy_key tok0) (afile_delete tok0 cache3 okRouter).2.1 =
      some (.obj sampleFile) ∧
    (afile_delete tok0 cache3 okRouter).2.2 =
      [.cacheRead tok0, .routerDelete [109, 49] [102, 49],
        .cacheRead (litellm_proxy_key [102, 49])] ∧
    (delete_unified_file_id tok0 cache3).1 = .ok sampleFile := by
  refine ⟨by decide, by decide, by decide, by decide, by decide⟩

/-- Dispatcher content events for a list of `(model_id, file_id)` pairs. -/
def routerContentEvents (l : List (List Nat × List Nat)) : List Event :=
  l.map fun p => .routerContent p.1 p.2

/-- The error message `str(e)` recorded for a failing content call (the
    empty string for a successful one, which never enters the dict). -/
def contentErr (r : Router) (p : List Nat × List Nat) : List Nat :=
  match r.afile_content p.1 p.2 with
  | .error e => e
  | .ok _ => []

/-- `routerContentCalls` splits over appended traces. -/
theorem routerContentCalls_append (a b : List Event) :
    routerContentCalls (a ++ b) =
      routerContentCalls a ++ routerContentCalls b := by
  simp [routerContentCalls]

/-- The content events of a pair list project back to the pair list. -/
theorem routerContentCalls_events (l : List (List Nat × List Nat)) :
    routerContentCalls (routerContentEvents l) = l := by
  induction l with
  | nil => rfl
  | cons p rest ih =>
    obtain ⟨m, f⟩ := p
    simpa [routerContentCalls, routerContentEvents] using ih

/-- A cache read contributes no dispatcher content call. -/
theorem routerContentCalls_cacheRead (k : List Nat) (evs : List Event) :
    routerContentCalls (.cacheRead k :: evs) = routerContentCalls evs := rfl

/-- When every backend's content call fails, the fan-out tries all of them
    and reports all checked model ids with each backend's own message. -/
theorem content_fanout_all_fail (r : Router) (initial : List Nat)
    (allKeys : List (List Nat)) (entries : List (List Nat × List Nat))
    (h : ∀ p ∈ entries, ∃ e, r.afile_content p.1 p.2 = .error e) :
    ∀ errs, content_fanout r initial allKeys entries errs =
      (.error (.notFoundChecked initial allKeys
        (errs ++ entries.map (fun p => (p.1, contentErr r p)))),
        routerContentEvents entries) := by
  induction entries with
  | nil => intro errs; simp [content_fanout, routerContentEvents]
  | cons p rest ih =>
    intro errs
    obtain ⟨m, f⟩ := p
    obtain ⟨e, he⟩ := h (m, f) (by simp)
    simp only [content_fanout, he]
    rw [ih (fun q hq => h q (by simp [hq])) (errs ++ [(m, e)])]
    simp [routerContentEvents, contentErr, he]

/-- The fan-out returns the first successful backend's content; later
    backends are not tried. -/
theorem content_fanout_first_success (r : Router) (initial : List Nat)
    (allKeys : List (List Nat)) (pre : List (List Nat × List Nat))
    (m f : List Nat) (post : List (List Nat × List Nat)) (s : List Nat)
    (hpre : ∀ p ∈ pre, ∃ e, r.afile_content p.1 p.2 = .error e)
    (hs : r.afile_content m f = .ok s) :
    ∀ errs, content_fanout r initial allKeys (pre ++ (m, f) :: post) errs =
      (.ok s, routerContentEvents (pre ++ [(m, f)])) := by
  induction pre with
  | nil =>
    intro errs
    rw [List.nil_append, content_fanout, hs]
    simp [routerContentEvents]
  | cons p rest ih =>
    intro errs
    obtain ⟨pm, pf⟩ := p
    obtain ⟨e, he⟩ := hpre (pm, pf) (by simp)
    rw [List.cons_append]
    simp only [content_fanout, he]
    rw [ih (fun q hq => hpre q (by simp [hq])) (errs ++ [(pm, e)])]
    simp [routerContentEvents]

/-- **C7** — `afile_content`: when a backend mapping is found for the
    normalized identifier, content retrieval is attempted from each mapped
    backend in mapping order and the first successful backend's content is
    returned, with no later backend tried; if every backend fails, the
    operation fails with NotFound whose detail carries the searched id,
    the set of checked model ids and each backend's own error message; and
    when no mapping is found it fails with NotFound immediately, with no
    dispatcher call. -/
theorem claim_C7_content_fanout :
    (∀ (U : List Nat) (c : Cache) (r : Router)
        (entries pre : List (List Nat × List Nat)) (m f : List Nat)
        (post : List (List Nat × List Nat)) (s : List Nat),
      startswith managedFileSentinel U = true →
      cacheLookup U c = some (.map entries) →
      entries = pre ++ (m, f) :: post →
      (∀ p ∈ pre, ∃ e, r.afile_content p.1 p.2 = .error e) →
      r.afile_content m f = .ok s →
      (afile_content U c r).1 = .ok s ∧
      routerContentCalls (afile_content U c r).2.2 = pre ++ [(m, f)]) ∧
    (∀ (U : List Nat) (c : Cache) (r : Router)
        (entries : List (List Nat × List Nat)),
      startswith managedFileSentinel U = true →
      cacheLookup U c = some (.map entries) → entries ≠ [] →
      (∀ p ∈ entries, ∃ e, r.afile_content p.1 p.2 = .error e) →
      (afile_content U c r).1 =
        .error (.notFoundChecked U (entries.map Prod.fst)
          (entries.map (fun p => (p.1, contentErr r p)))) ∧
      routerContentCalls (afile_content U c r).2.2 = entries) ∧
    (∀ (id : List Nat) (c : Cache) (r : Router),
      cacheLookup (convert_b64_uid_to_unified_uid id) c = none →
      (afile_content id c r).1 = .error (.notFound id) ∧
      routerContentCalls (afile_content id c r).2.2 = []) := by
  refine ⟨?_, ?_, ?_⟩
  · intro U c r entries pre m f post s hU hmap hsplit hpre hs
    have hcu : convert_b64_uid_to_unified_uid U = U := by
      unfold convert_b64_uid_to_unified_uid
      rw [isB64_sentinel_none U hU]
    have hne : entries ≠ [] := by subst hsplit; simp
    have ht : truthy (some (PyValue.map entries)) = true := by
      simp [truthy, hne]
    simp only [afile_content, hcu]
    rw [gmfim_managed_truthy U c (PyValue.map entries) hU hmap ht]
    subst hsplit
    simp [mappingGet, ht,
      content_fanout_first_success r U _ pre m f post s hpre hs,
      routerContentCalls_append, routerContentCalls_events,
      routerContentCalls_cacheRead]
  · intro U c r entries hU hmap hne hfail
    have hcu : convert_b64_uid_to_unified_uid U = U := by
      unfold convert_b64_uid_to_unified_uid
      rw [isB64_sentinel_none U hU]
    have ht : truthy (some (PyValue.map entries)) = true := by
      simp [truthy, hne]
    simp only [afile_content, hcu]
    rw [gmfim_managed_truthy U c (PyValue.map entries) hU hmap ht]
    simp [mappingGet, ht, content_fanout_all_fail r U _ entries hfail,
      routerContentCalls_append, routerContentCalls_events,
      routerContentCalls_cacheRead]
  · intro id c r hnone
    by_cases hsw : startswith managedFileSentinel
        (convert_b64_uid_to_unified_uid id) = true
    · simp only [afile_content]
      rw [gmfim_managed _ c hsw, hnone]
      simp [mappingGet, routerContentCalls]
    · simp only [afile_content]
      rw [gmfim_unmanaged id c (by simpa using hsw)]
      simp [mappingGet, routerContentCalls]

/-- A cache holding only the two-backend mapping for `tok0`. -/
def cache4 : Cache := [(tok0, some (.map mapEntries2))]

/-- A dispatcher whose content fetch fails (message `"e1"`) on backend
    `"m1"` and succeeds (content `"C"`) elsewhere. -/
def contentRouter : Router :=
  { afile_delete := fun _ _ => .ok (),
    afile_content := fun m _ =>
      if m = [109, 49] then .error [101, 49] else .ok [67] }

/-- Witness for C7: backend `"m1"` fails and `"m2"` succeeds, so backend
    `"m2"`'s content is returned after trying both in order; when both
    fail, the failure enumerates both model ids with their messages; with
    no mapping, NotFound with no dispatcher call. -/
theorem claim_C7_content_fanout_witness :
    (afile_content tok0 cache4 contentRouter).1 = .ok [67] ∧
    routerContentCalls (afile_content tok0 cache4 contentRouter).2.2 =
      mapEntries2 ∧
    (afile_content tok0 cache4 failRouter).1 =
      .error (.notFoundChecked tok0 [[109, 49], [109, 50]]
        [([109, 49], [101]), ([109, 50], [101])]) ∧
    (afile_content [102] [] okRouter).1 = .error (.notFound [102]) ∧
    routerContentCalls (afile_content [102] [] okRouter).2.2 = [] := by
  refine ⟨?_, ?_, ?_, ?_, ?_⟩
  · exact (claim_C7_content_fanout.1 tok0 cache4 contentRouter mapEntries2
      [([109, 49], [102, 49])] [109, 50] [102, 50] [] [67]
      (by decide) (by decide) (by decide)
      (by
        intro p hp
        simp at hp
        subst hp
        exact ⟨[101, 49], by decide⟩)
      (by decide)).1
  · exact (claim_C7_content_fanout.1 tok0 cache4 contentRouter mapEntries2
      [([109, 49], [102, 49])] [109, 50] [102, 50] [] [67]
      (by decide) (by decide) (by decide)
      (by
        intro p hp
        simp at hp
        subst hp
        exact ⟨[101, 49], by decide⟩)
      (by decide)).2
  · exact (claim_C7_content_fanout.2.1 tok0 cache4 failRouter mapEntries2
      (by decide) (by decide) (by decide)
      (fun p _ => ⟨[101], rfl⟩)).1
  · exact (claim_C7_content_fanout.2.2 [102] [] okRouter (by decide)).1
  · exact (claim_C7_content_fanout.2.2 [102] [] okRouter (by decide)).2

/-- In-place part rewriting: the part at index `j`, when it is a `"file"`
    part with a truthy id, carries the normalized id after processing. -/
theorem process_parts_get :
    ∀ (parts : List ChatContentPart) (j : Nat) (fid : List Nat),
      parts.get? j = some (.filePart (some fid)) → fid ≠ [] →
      (process_parts parts).2.get? j =
        some (.filePart (some (convert_b64_uid_to_unified_uid_static fid))) := by
  intro parts
  induction parts with
  | nil => intro j fid h _; simp at h
  | cons p rest ih =>
    intro j fid h hne
    cases j with
    | zero =>
      rw [List.get?_cons_zero] at h
      have hp := Option.some.inj h
      subst hp
      simp [process_parts, hne]
    | succ j =>
      rw [List.get?_cons_succ] at h
      have hrec := ih j fid h hne
      cases p with
      | filePart ofid =>
        cases ofid with
        | none => simpa [process_parts] using hrec
        | some fid' =>
          by_cases hf : fid' ≠ [] <;> simpa [process_parts, hf] using hrec
      | otherPart t => simpa [process_parts] using hrec

/-- Every key of a mapping produced by the managed filter carries the
    sentinel. -/
theorem managed_filter_sentinel (x k : List Nat)
    (h : managed_filter x = some k) :
    startswith managedFileSentinel k = true := by
  unfold managed_filter at h
  cases hb : is_base64_encoded_unified_file_id x with
  | some d =>
    rw [hb] at h
    obtain rfl : d = k := by simpa using h
    exact (isB64_some x d hb).2.2
  | none =>
    rw [hb] at h
    split_ifs at h with hs
    obtain rfl : x = k := by simpa using h
    exact hs

/-- Keys of the looked-up mapping all come from the id list. -/
theorem lookup_entries_keys (c : Cache) :
    ∀ (ids : List (List Nat)) (k : List Nat) (v : PyValue),
      (k, v) ∈ (lookup_mapping_entries c ids).1 → k ∈ ids := by
  intro ids
  induction ids with
  | nil => intro k v h; simp [lookup_mapping_entries] at h
  | cons fid rest ih =>
    intro k v h
    unfold lookup_mapping_entries at h
    cases hv : cacheLookup fid c with
    | none =>
      rw [hv] at h
      exact List.mem_cons_of_mem _ (ih k v h)
    | some pv =>
      rw [hv] at h
      by_cases ht : truthy (some pv) = true
      · simp only [ht, if_true] at h
        rcases List.mem_cons.mp h with heq | hmem
        · simp at heq
          simp [heq.1]
        · exact List.mem_cons_of_mem _ (ih k v hmem)
      · simp only [ht] at h
        simp at h
        exact List.mem_cons_of_mem _ (ih k v h)

/-- No truthy `"file"` part means no collected id and no mutation. -/
theorem process_parts_nofiles (parts : List ChatContentPart)
    (h : ∀ fid, ChatContentPart.filePart (some fid) ∈ parts → fid = []) :
    process_parts parts = ([], parts) := by
  induction parts with
  | nil => rfl
  | cons p rest ih =>
    have hrest := ih fun fid hf => h fid (by simp [hf])
    cases p with
    | filePart ofid =>
      cases ofid with
      | none => simp [process_parts, hrest]
      | some fid =>
        have : fid = [] := h fid (by simp)
        subst this
        simp [process_parts, hrest]
    | otherPart t => simp [process_parts, hrest]

/-- A message without truthy file parts is passed through unchanged. -/
theorem process_message_nofiles (m : ChatMessage)
    (h : m.role = some userRole →
      ∀ parts, m.content = some (.partsContent parts) →
      ∀ fid, ChatContentPart.filePart (some fid) ∈ parts → fid = []) :
    process_message m = ([], m) := by
  obtain ⟨role, content⟩ := m
  by_cases hrole : role = some userRole
  · cases content with
    | none => simp [process_message, hrole]
    | some mc =>
      cases mc with
      | strContent s => simp [process_message, hrole]
      | partsContent parts =>
        by_cases hp : parts = []
        · subst hp
          simp [process_message, hrole]
        · have hpp := process_parts_nofiles parts (h hrole parts rfl)
          simp [process_message, hrole, hp, hpp]
  · simp [process_message, hrole]

/-- Messages without truthy file parts: no ids collected, list unchanged. -/
theorem get_file_ids_nofiles (msgs : List ChatMessage)
    (h : ∀ m ∈ msgs, m.role = some userRole →
      ∀ parts, m.content = some (.partsContent parts) →
      ∀ fid, ChatContentPart.filePart (some fid) ∈ parts → fid = []) :
    get_file_ids_and_decode_b64_to_unified_uid_from_messages msgs =
      ([], msgs) := by
  induction msgs with
  | nil => rfl
  | cons m rest ih =>
    rw [get_file_ids_and_decode_b64_to_unified_uid_from_messages,
      process_message_nofiles m (h m (by simp)),
      ih fun m' hm' => h m' (by simp [hm'])]
    rfl

/-- The rewritten message list is the pointwise image of
    `process_message`. -/
theorem get_file_ids_get (msgs : List ChatMessage) :
    ∀ (i : Nat) (m : ChatMessage), msgs.get? i = some m →
      (get_file_ids_and_decode_b64_to_unified_uid_from_messages msgs).2.get? i =
        some (process_message m).2 := by
  induction msgs with
  | nil => intro i m hi; simp at hi
  | cons mm rest ih =>
    intro i m hi
    cases i with
    | zero =>
      rw [List.get?_cons_zero] at hi
      have := Option.some.inj hi
      subst this
      rw [get_file_ids_and_decode_b64_to_unified_uid_from_messages]
      rfl
    | succ i =>
      rw [List.get?_cons_succ] at hi
      rw [get_file_ids_and_decode_b64_to_unified_uid_from_messages]
      simpa using ih i m hi

/-- **C8** — the Request Rewriter: every content part typed `"file"` inside
    a user-role message with list content has its `file_id` replaced in
    place by its normalized value; the resolved mapping is attached to the
    request under `"model_file_id_mapping"`, and every key of that mapping
    is sentinel-prefixed after normalization (non-sentinel ids are skipped
    from resolution); and when the messages contain no (truthy) file
    references, the request payload is returned unchanged. -/
theorem claim_C8_request_rewriter :
    (∀ (msgs : List ChatMessage) (i j : Nat) (m : ChatMessage)
        (parts : List ChatContentPart) (fid : List Nat),
      msgs.get? i = some m → m.role = some userRole →
      m.content = some (.partsContent parts) →
      parts.get? j = some (.filePart (some fid)) → fid ≠ [] →
      ∃ parts',
        (get_file_ids_and_decode_b64_to_unified_uid_from_messages
          msgs).2.get? i =
            some { m with content := some (.partsContent parts') } ∧
        parts'.get? j =
          some (.filePart
            (some (convert_b64_uid_to_unified_uid_static fid)))) ∧
    (∀ (data : RequestData) (c : Cache) (msgs : List ChatMessage),
      data.messages = some msgs → msgs ≠ [] →
      (get_file_ids_and_decode_b64_to_unified_uid_from_messages msgs).1 ≠
        [] →
      (async_pre_call_hook completionCallType data c).1 =
        { data with
          messages :=
            some (get_file_ids_and_decode_b64_to_unified_uid_from_messages
              msgs).2,
          model_file_id_mapping :=
            some (get_model_file_id_mapping
              (get_file_ids_and_decode_b64_to_unified_uid_from_messages
                msgs).1 c).1 }) ∧
    (∀ (ids : List (List Nat)) (c : Cache) (k : List Nat) (v : PyValue),
      (k, v) ∈ (get_model_file_id_mapping ids c).1 →
      startswith managedFileSentinel k = true) ∧
    (∀ (call_type : List Nat) (data : RequestData) (c : Cache)
        (msgs : List ChatMessage),
      data.messages = some msgs →
      (∀ m ∈ msgs, m.role = some userRole →
        ∀ parts, m.content = some (.partsContent parts) →
        ∀ fid, ChatContentPart.filePart (some fid) ∈ parts → fid = []) →
      async_pre_call_hook call_type data c = (data, [])) := by
  refine ⟨?_, ?_, ?_, ?_⟩
  · intro msgs i j m parts fid hi hrole hcontent hj hne
    have hpne : parts ≠ [] := by
      intro hp
      subst hp
      simp at hj
    have hpm : (process_message m).2 =
        { m with content := some (.partsContent (process_parts parts).2) } := by
      obtain ⟨role, content⟩ := m
      have hrole' : role = some userRole := hrole
      have hcontent' : content = some (.partsContent parts) := hcontent
      subst hcontent'
      simp [process_message, hrole', hpne]
    refine ⟨(process_parts parts).2, ?_, process_parts_get parts j fid hj hne⟩
    rw [get_file_ids_get msgs i m hi, hpm]
  · intro data c msgs hmsgs hne hfids
    simp [async_pre_call_hook, hmsgs, hne, hfids]
  · intro ids c k v hmem
    obtain ⟨x, _, hmf⟩ :=
      List.mem_filterMap.mp (lookup_entries_keys c _ k v hmem)
    exact managed_filter_sentinel x k hmf
  · intro ct data c msgs hmsgs hno
    unfold async_pre_call_hook
    by_cases hct : ct = completionCallType
    · subst hct
      by_cases hm : msgs = []
      · subst hm
        simp [hmsgs]
      · rw [if_pos rfl]
        obtain ⟨ms, mf⟩ := data
        have hms : ms = some msgs := hmsgs
        subst hms
        simp [hm, get_file_ids_nofiles msgs hno]
    · simp [hct]

/-- A one-message request whose user message carries a base64 file id and
    a text part. -/
def msgs5 : List ChatMessage :=
  [{ role := some userRole,
     content := some (.partsContent
       [.filePart (some b64id0), .otherPart [116]]) }]

/-- The request payload wrapping `msgs5`. -/
def data5 : RequestData :=
  { messages := some msgs5, model_file_id_mapping := none }

/-- A one-message request with plain string content (no file reference). -/
def msgs6 : List ChatMessage :=
  [{ role := some userRole, content := some (.strContent [104]) }]

/-- The request payload wrapping `msgs6`. -/
def data6 : RequestData :=
  { messages := some msgs6, model_file_id_mapping := none }

/-- Witness for C8: the file part's id is rewritten in place to the
    decoded token, the resolved mapping is attached, and a request with no
    file references passes through unchanged. -/
theorem claim_C8_request_rewriter_witness :
    (∃ parts',
      (get_file_ids_and_decode_b64_to_unified_uid_from_messages
        msgs5).2.get? 0 =
          some { role := some userRole,
                 content := some (.partsContent parts') } ∧
      parts'.get? 0 =
        some (.filePart
          (some (convert_b64_uid_to_unified_uid_static b64id0)))) ∧
    (async_pre_call_hook completionCallType data5 cache4).1 =
      { data5 with
        messages :=
          some (get_file_ids_and_decode_b64_to_unified_uid_from_messages
            msgs5).2,
        model_file_id_mapping :=
          some (get_model_file_id_mapping
            (get_file_ids_and_decode_b64_to_unified_uid_from_messages
              msgs5).1 cache4).1 } ∧
    async_pre_call_hook completionCallType data6 cache4 = (data6, []) := by
  refine ⟨?_, ?_, ?_⟩
  · exact claim_C8_request_rewriter.1 msgs5 0 0
      { role := some userRole,
        content := some (.partsContent
          [.filePart (some b64id0), .otherPart [116]]) }
      [.filePart (some b64id0), .otherPart [116]] b64id0
      rfl rfl rfl rfl (by decide)
  · exact claim_C8_request_rewriter.2.1 data5 cache4 msgs5 rfl
      (by decide) (by decide)
  · refine claim_C8_request_rewriter.2.2.2 completionCallType data6 cache4
      msgs6 rfl ?_
    intro m hm hrole parts hc fid hf
    simp [msgs6] at hm
    subst hm
    simp at hc
